import Mathlib

attribute [local semireducible] Rat.add Rat.mul Rat.inv Rat.sub Rat.ofScientific

set_option maxRecDepth 4000

/-!
Verification of the FinTrackO conversational finance bot.

This file gives a shallow embedding, in Lean 4, of the parts of
`Commands.py` and `Function.py` that the verified properties speak about:

* amount parsing in the `waiting_amount` steps (`tx_amount`, `debt_amount`),
  including a model of CPython's `float()` string conversion;
* the global `cancel` / `home` callback handlers and the callback dispatch
  table (registration order of the aiogram router);
* the anchor-message controller (`reply_or_edit_anchor`,
  `edit_anchor_from_cb`);
* the monthly summary (`get_month_summary`), history pagination
  (`list_transactions`, `history_cb`, `kb_history`);
* debt closing (`close_debt`, `debt_close_cb`);
* tracked-currency toggling (`track_toggle`, `update_user_settings`);
* the FX rate fetch (`get_rate`, `get_rates_for_user`, `rates_cb`).

Modelling conventions: machine floats are modelled by `PyFloat`, an exact
rational together with the special values `+inf`, `-inf` and `nan`; when a
parsed literal is so small or so large that CPython's `float()` would round
it to `0.0` or to an infinity the model does the same, so the sign tests the
code performs agree with the model everywhere.  Database tables are lists of
records, the sqlite statements become pure list transformations, and the
HTTP round trip of the rate provider is an explicit outcome parameter
(`HttpOutcome`): a timeout raises in the Python code, which the model
renders as `Except.error`.
-/

/-- Model of a CPython `float` value: an exact rational, or one of the
special values.  Exactness of the rational is an abstraction of binary64
rounding; the code under verification only ever branches on comparisons
with zero, and `toPyFloat` applies the underflow/overflow thresholds at
which such comparisons would differ. -/
inductive PyFloat where
  | finite (q : ℚ)
  | posInf
  | negInf
  | nan
deriving DecidableEq, Repr

/-- The Python comparison `x <= 0` on a float: `nan <= 0` is `False`. -/
def pyLeZero : PyFloat → Bool
  | PyFloat.finite q => q ≤ 0
  | PyFloat.posInf => false
  | PyFloat.negInf => true
  | PyFloat.nan => false

/-- Whitespace characters stripped by `str.strip()` (ASCII range). -/
def pyIsSpace (c : Char) : Bool :=
  c = ' ' || c = '\t' || c = '\n' || c = '\r' || c = '\x0b' || c = '\x0c'

/-- Model of `str.strip()` on a character list. -/
def stripChars (cs : List Char) : List Char :=
  ((cs.dropWhile pyIsSpace).reverse.dropWhile pyIsSpace).reverse

/-- Model of `text.replace(",", ".")` (single-character pattern, so a map). -/
def commaToDot (cs : List Char) : List Char :=
  cs.map fun c => if c = ',' then '.' else c

/-- Scanner for a CPython `digitpart`: `digit (["_"] digit)*`.  Returns the
accumulated value, the number of digits read, and the unread remainder; an
underscore is consumed only between two digits. -/
def digitScan : List Char → Nat → Nat → Nat × Nat × List Char
  | '_' :: c :: rest, acc, n =>
    if n ≠ 0 && c.isDigit then digitScan rest (acc * 10 + (c.toNat - 48)) (n + 1)
    else (acc, n, '_' :: c :: rest)
  | c :: rest, acc, n =>
    if c.isDigit then digitScan rest (acc * 10 + (c.toNat - 48)) (n + 1)
    else (acc, n, c :: rest)
  | [], acc, n => (acc, n, [])

/-- Mantissa of a float literal: `digitpart ["." [digitpart]]` or
`"." digitpart`; at least one digit overall.  Returns the mantissa digits
as a natural number together with the number of fractional digits. -/
def mantissaScan (cs : List Char) : Option (Nat × Nat × List Char) :=
  let s1 := digitScan cs 0 0
  match s1.2.2 with
  | '.' :: rest2 =>
    let s2 := digitScan rest2 0 0
    if s1.2.1 = 0 && s2.2.1 = 0 then none
    else some (s1.1 * 10 ^ s2.2.1 + s2.1, s2.2.1, s2.2.2)
  | _ => if s1.2.1 = 0 then none else some (s1.1, 0, s1.2.2)

/-- Optional exponent: `("e"|"E") [sign] digitpart`; absence yields 0. -/
def exponentScan : List Char → Option (Int × List Char)
  | [] => some (0, [])
  | c :: rest =>
    if c = 'e' || c = 'E' then
      match rest with
      | '+' :: rest2 =>
        let s := digitScan rest2 0 0
        if s.2.1 = 0 then none else some ((s.1 : Int), s.2.2)
      | '-' :: rest2 =>
        let s := digitScan rest2 0 0
        if s.2.1 = 0 then none else some (-(s.1 : Int), s.2.2)
      | _ =>
        let s := digitScan rest 0 0
        if s.2.1 = 0 then none else some ((s.1 : Int), s.2.2)
    else some (0, c :: rest)

/-- Lower-cased characters, for the case-insensitive named floats. -/
def lowerChars (cs : List Char) : List Char := cs.map Char.toLower

/-- Behaviour of `float()` on the named values `inf`, `infinity`, `nan` (sign already
removed; a sign on `nan` is dropped by comparison semantics anyway). -/
def namedFloat (neg : Bool) (cs : List Char) : Option PyFloat :=
  let l := lowerChars cs
  if l == "inf".data || l == "infinity".data then
    some (if neg then PyFloat.negInf else PyFloat.posInf)
  else if l == "nan".data then some PyFloat.nan
  else none

/-- Smallest exact magnitude that binary64 round-to-nearest-even sends to
infinity: 2^1024 - 2^970. -/
def DBL_OVERFLOW_N : Nat := 2 ^ 1024 - 2 ^ 970

/-- The rounding of `float()` applied to the parsed literal
`±num * 10^(e - scale)`: magnitudes at or above `2^1024 - 2^970` become an
infinity, magnitudes at or below `2^(-1075)` become `0.0`, and in between
the exact rational value is kept (binary64 rounding inside the normal
range never changes the sign tests the code performs). -/
def toPyFloat (neg : Bool) (num : Nat) (scale : Nat) (e : Int) : PyFloat :=
  let p : Nat := (e - scale).toNat
  let q : Nat := (scale - e).toNat
  if DBL_OVERFLOW_N * 10 ^ q ≤ num * 10 ^ p then
    if neg then PyFloat.negInf else PyFloat.posInf
  else if num * 10 ^ p * 2 ^ 1075 ≤ 10 ^ q then PyFloat.finite 0
  else
    let mag : ℚ := ((num * 10 ^ p : Nat) : ℚ) / ((10 ^ q : Nat) : ℚ)
    PyFloat.finite (if neg then -mag else mag)

/-- CPython `float(str)` on ASCII input: optional whitespace, optional
sign, then a named value or a decimal literal with optional exponent,
consuming the whole string.  (Non-ASCII digit forms are not modelled.) -/
def pyFloatOfChars (cs0 : List Char) : Option PyFloat :=
  let cs := stripChars cs0
  let signed : Bool × List Char :=
    match cs with
    | '+' :: r => (false, r)
    | '-' :: r => (true, r)
    | _ => (false, cs)
  match namedFloat signed.1 signed.2 with
  | some pf => some pf
  | none =>
    match mantissaScan signed.2 with
    | none => none
    | some (num, scale, rest) =>
      match exponentScan rest with
      | none => none
      | some (e, rest2) =>
        if rest2 = [] then some (toPyFloat signed.1 num scale e) else none

/-- The amount-normalisation pipeline of `tx_amount` / `debt_amount`:
`(m.text or "").strip()` followed by `.replace(",", ".")`, then `float`. -/
def pyAmountParse (raw : String) : Option PyFloat :=
  pyFloatOfChars (commaToDot (stripChars raw.data))

/-- The acceptance decision of the `waiting_amount` handlers: `float(...)`
must succeed and `amount <= 0` must be false. -/
def pyAccepts (raw : String) : Bool :=
  match pyAmountParse raw with
  | some a => !pyLeZero a
  | none => false

/-- Spec-side characterisation (from the spec's words, for comparison with
the code): the input parses as a decimal number with value strictly
greater than 0. -/
def specPositiveDecimal (raw : String) : Bool :=
  match pyAmountParse raw with
  | some (PyFloat.finite q) => 0 < q
  | _ => false

/-- The aiogram conversation states of `TxStates` and `DebtStates`,
together with the idle (cleared) state. -/
inductive ConvState where
  | idle
  | txWaitingAmount
  | txWaitingCategory
  | txWaitingNote
  | debtWaitingDirection
  | debtWaitingCounterparty
  | debtWaitingAmount
  | debtWaitingNote
deriving DecidableEq, Repr

/-- The FSMContext data dictionary: the partial record accumulated across
the steps of the two flows.  `state.clear()` resets every field. -/
structure FSMData where
  tx_type : Option String := none
  amount : Option PyFloat := none
  category : Option String := none
  direction : Option String := none
  counterparty : Option String := none
deriving DecidableEq, Repr

/-- An inline keyboard button: display text and callback data. -/
structure Button where
  text : String
  callback_data : String
deriving DecidableEq, Repr

/-- An inline keyboard: rows of buttons. -/
abbrev Keyboard := List (List Button)

/-- A rendered screen: message text plus keyboard, as passed to
`reply_or_edit_anchor` / `edit_anchor_from_cb`. -/
abbrev Render := String × Keyboard

def DEFAULT_CATEGORIES : List String :=
  ["Продукты", "Транспорт", "Коммуналка", "Связь", "Образование",
   "Здоровье", "Одежда", "Развлечения", "Прочее"]

def INCOME_CATEGORIES : List String := ["Работа", "Фриланс", "Подарок", "Прочее"]

def kb_main : Keyboard :=
  [[{ text := "➖ Расход", callback_data := "expense_add" },
    { text := "➕ Доход", callback_data := "income_add" }],
   [{ text := "📊 Мои финансы", callback_data := "summary" },
    { text := "🗂 История", callback_data := "history:1" }],
   [{ text := "💱 Курс", callback_data := "rates" },
    { text := "🏦 Долги", callback_data := "debts" }],
   [{ text := "⚙️ Настройки", callback_data := "settings" },
    { text := "🧹 Очистить", callback_data := "clear" }]]

def kb_cancel : Keyboard := [[{ text := "❌ Отмена", callback_data := "cancel" }]]

/-- The 3-per-row grouping loop used by `kb_categories` and
`set_tracked_cb`. -/
def rowsOf3 : List Button → List (List Button)
  | a :: b :: c :: rest => [a, b, c] :: rowsOf3 rest
  | [] => []
  | rest => [rest]

def kb_categories (for_income : Bool) : Keyboard :=
  let items := if for_income then INCOME_CATEGORIES else DEFAULT_CATEGORIES
  rowsOf3 (items.map fun c => { text := c, callback_data := "cat:" ++ c })
    ++ [[{ text := "Пропустить", callback_data := "cat:__skip__" }],
        [{ text := "❌ Отмена", callback_data := "cancel" }]]

def kb_history (page : Nat) (has_more : Bool) : Keyboard :=
  let nav : List Button :=
    (if 1 < page then
      [{ text := "◀️", callback_data := "history:" ++ toString (page - 1) }] else [])
    ++ (if has_more then
      [{ text := "▶️", callback_data := "history:" ++ toString (page + 1) }] else [])
  let nav := if nav = [] then
    [{ text := "↻ Обновить", callback_data := "history:" ++ toString page }] else nav
  [nav, [{ text := "⬅️ Назад", callback_data := "home" }]]

/-- The `tx_amount` message handler (state `TxStates.waiting_amount`):
strip, comma-to-dot, `float(...)`, reject when parsing fails or
`amount <= 0`; on rejection the state and partial record are untouched and
the error prompt is re-rendered, on acceptance the amount is stored and the
state advances to `waiting_category`. -/
def tx_amount (d : FSMData) (rawText : String) : ConvState × FSMData × Render :=
  match pyAmountParse rawText with
  | some a =>
    if pyLeZero a then
      (ConvState.txWaitingAmount, d,
        ("Некорректная сумма. Введи положительное число.", kb_cancel))
    else
      let d2 : FSMData := { d with amount := some a }
      (ConvState.txWaitingCategory, d2,
        ("Выбери категорию:", kb_categories (d2.tx_type == some "income")))
  | none =>
    (ConvState.txWaitingAmount, d,
      ("Некорректная сумма. Введи положительное число.", kb_cancel))

/-- The `debt_amount` message handler (state `DebtStates.waiting_amount`):
same validation; on acceptance the state advances to `waiting_note`. -/
def debt_amount (d : FSMData) (rawText : String) : ConvState × FSMData × Render :=
  match pyAmountParse rawText with
  | some a =>
    if pyLeZero a then
      (ConvState.debtWaitingAmount, d,
        ("Некорректная сумма. Введи положительное число.", kb_cancel))
    else
      (ConvState.debtWaitingNote, { d with amount := some a },
        ("Комментарий? (или - для пропуска)", kb_cancel))
  | none =>
    (ConvState.debtWaitingAmount, d,
      ("Некорректная сумма. Введи положительное число.", kb_cancel))

/-- C1 (counterexample): the input "nan" is accepted by the
`waiting_amount` handler — `float("nan")` succeeds and `nan <= 0` is
`False` — so the state advances and `nan` is stored as the amount, even
though "nan" does not parse as a decimal number with value strictly
greater than 0.  This refutes the claimed "if and only if". -/
theorem C1_nan_accepted_cex :
    (tx_amount {} "nan").1 = ConvState.txWaitingCategory ∧
    (tx_amount {} "nan").2.1 = { amount := some PyFloat.nan } ∧
    (debt_amount {} "nan").1 = ConvState.debtWaitingNote ∧
    specPositiveDecimal "nan" = false := by
  decide

/-- C1 (amended): in both `waiting_amount` states a free-text input is
accepted iff, after stripping and replacing "," by ".", it is accepted by
`float()` and the parsed value `a` fails the test `a <= 0` (so `+inf` and
`nan` are also accepted, since `nan <= 0` is `False`); on acceptance the
parsed amount is stored in the partial record and the state advances
(`waiting_category` for transactions, `waiting_note` for debts), and on
rejection state and record are unchanged and the error prompt is
re-rendered.  On the decimal fragment the acceptance test coincides with
"value strictly greater than 0". -/
theorem C1_amount_step (d : FSMData) (raw : String) :
    tx_amount d raw =
      (if pyAccepts raw then
        (ConvState.txWaitingCategory, { d with amount := pyAmountParse raw },
          ("Выбери категорию:", kb_categories (d.tx_type == some "income")))
      else
        (ConvState.txWaitingAmount, d,
          ("Некорректная сумма. Введи положительное число.", kb_cancel))) ∧
    debt_amount d raw =
      (if pyAccepts raw then
        (ConvState.debtWaitingNote, { d with amount := pyAmountParse raw },
          ("Комментарий? (или - для пропуска)", kb_cancel))
      else
        (ConvState.debtWaitingAmount, d,
          ("Некорректная сумма. Введи положительное число.", kb_cancel))) ∧
    (pyAccepts raw = true ↔ ∃ a, pyAmountParse raw = some a ∧ pyLeZero a = false) ∧
    (∀ q : ℚ, pyAmountParse raw = some (PyFloat.finite q) →
      (pyAccepts raw = true ↔ 0 < q)) := by
  refine ⟨?_, ?_, ?_, ?_⟩
  · cases hp : pyAmountParse raw with
    | none => simp [tx_amount, pyAccepts, hp]
    | some a => cases hl : pyLeZero a <;> simp [tx_amount, pyAccepts, hp, hl]
  · cases hp : pyAmountParse raw with
    | none => simp [debt_amount, pyAccepts, hp]
    | some a => cases hl : pyLeZero a <;> simp [debt_amount, pyAccepts, hp, hl]
  · cases hp : pyAmountParse raw with
    | none => simp [pyAccepts, hp]
    | some a => cases hl : pyLeZero a <;> simp [pyAccepts, hp, hl]
  · intro q hp
    simp [pyAccepts, hp, pyLeZero, not_le]

/-- C1 (witness): concrete runs of the amended statement — "250,50"
parses to 250.5 and is accepted, "abc" is rejected with an unchanged
record. -/
theorem C1_amount_step_witness :
    tx_amount {} "250,50" =
      (ConvState.txWaitingCategory, { amount := some (PyFloat.finite (501 / 2)) },
        ("Выбери категорию:", kb_categories false)) ∧
    tx_amount { tx_type := some "expense" } "abc" =
      (ConvState.txWaitingAmount, { tx_type := some "expense" },
        ("Некорректная сумма. Введи положительное число.", kb_cancel)) := by
  have h1 := (C1_amount_step {} "250,50").1
  have h2 := (C1_amount_step { tx_type := some "expense" } "abc").1
  rw [h1, h2]
  decide

/-- Whether `p` is a prefix of `s`, as `str.startswith` / aiogram
`F.data.startswith`. -/
def startsWithStr (p s : String) : Bool := p.data.isPrefixOf s.data

/-- The part of the callback data after the `":"` delimiter of a given
action token, as extracted by `cb.data.split(":")`. -/
def afterToken (p s : String) : String := String.mk (s.data.drop p.data.length)

/-- The callback handlers registered on the router, one constructor per
`@r.callback_query` handler of `Commands.py`. -/
inductive CbAction where
  | home
  | cancel
  | clear
  | summary
  | rates
  | history (pageArg : String)
  | expense_add
  | income_add
  | tx_category_wrong
  | tx_category (cat : String)
  | debts
  | debt_add
  | debt_dir (direction : String)
  | debt_close (debtIdArg : String)
  | settings
  | set_base
  | base_save (val : String)
  | set_tracked
  | track_toggle_act (ccy : String)
  | track_save
  | unhandled
deriving DecidableEq, Repr

/-- Callback dispatch: aiogram tries handlers in registration order; a
handler fires when its `F.data` filter matches and, where a state filter is
present, the current conversation state equals it.  This mirrors the
registration order in `register_handlers`. -/
def dispatch_cb (s : ConvState) (data : String) : CbAction :=
  if data = "home" then CbAction.home
  else if data = "cancel" then CbAction.cancel
  else if data = "clear" then CbAction.clear
  else if data = "summary" then CbAction.summary
  else if data = "rates" then CbAction.rates
  else if startsWithStr "history:" data then CbAction.history (afterToken "history:" data)
  else if data = "expense_add" then CbAction.expense_add
  else if data = "income_add" then CbAction.income_add
  else if s = ConvState.txWaitingAmount && startsWithStr "cat:" data then
    CbAction.tx_category_wrong
  else if s = ConvState.txWaitingCategory && startsWithStr "cat:" data then
    CbAction.tx_category (afterToken "cat:" data)
  else if data = "debts" then CbAction.debts
  else if data = "debt_add" then CbAction.debt_add
  else if s = ConvState.debtWaitingDirection && startsWithStr "dir:" data then
    CbAction.debt_dir (afterToken "dir:" data)
  else if startsWithStr "debt_close:" data then CbAction.debt_close (afterToken "debt_close:" data)
  else if data = "settings" then CbAction.settings
  else if data = "set_base" then CbAction.set_base
  else if startsWithStr "base:" data then CbAction.base_save (afterToken "base:" data)
  else if data = "set_tracked" then CbAction.set_tracked
  else if startsWithStr "track:" data then CbAction.track_toggle_act (afterToken "track:" data)
  else if data = "track_save" then CbAction.track_save
  else CbAction.unhandled

/-- The `home_cb` handler: `state.clear()` then render the main menu on
the anchor. -/
def home_cb (_st : ConvState × FSMData) : (ConvState × FSMData) × Render :=
  ((ConvState.idle, {}), ("Главное меню:", kb_main))

/-- The `cancel_cb` handler: `state.clear()` then render the main menu on
the anchor (with the cancellation text). -/
def cancel_cb (_st : ConvState × FSMData) : (ConvState × FSMData) × Render :=
  ((ConvState.idle, {}), ("Действие отменено. Главное меню:", kb_main))

/-- C2: from every conversation state and partial record, a `cancel` or
`home` callback is routed to the global `cancel_cb` / `home_cb` handler
(both are registered before every state-filtered handler and carry no
state filter), which unconditionally clears the state and the partial
record and renders the idle main-menu screen; running the handler again
from the state it produced yields the same result, so the operation is
idempotent. -/
theorem C2_cancel_home_global (s : ConvState) (d : FSMData) :
    dispatch_cb s "cancel" = CbAction.cancel ∧
    dispatch_cb s "home" = CbAction.home ∧
    cancel_cb (s, d) = ((ConvState.idle, {}), ("Действие отменено. Главное меню:", kb_main)) ∧
    home_cb (s, d) = ((ConvState.idle, {}), ("Главное меню:", kb_main)) ∧
    cancel_cb (cancel_cb (s, d)).1 = cancel_cb (s, d) ∧
    home_cb (home_cb (s, d)).1 = home_cb (s, d) := by
  exact ⟨rfl, rfl, rfl, rfl, rfl, rfl⟩

/-- Result of a successful render: the referenced message was edited in
place, or a brand-new message was sent. -/
inductive RenderResult where
  | edited (msgId : Nat)
  | sentNew (msgId : Nat)
deriving DecidableEq, Repr

/-- Model of `reply_or_edit_anchor` (message-triggered renders).  `editOk m` says
whether `bot.edit_message_text` on message `m` succeeds; `freshId` is the
id of the message `message.answer` would create.  Returns the delivery
outcome and the stored anchor afterwards; this path never raises: a failed
or absent anchor edit falls back to sending a new message and re-anchoring
to it. -/
def reply_or_edit_anchor (editOk : Nat → Bool) (anchor : Option Nat)
    (freshId : Nat) : RenderResult × Option Nat :=
  match anchor with
  | some a =>
    if editOk a then (RenderResult.edited a, some a)
    else (RenderResult.sentNew freshId, some freshId)
  | none => (RenderResult.sentNew freshId, some freshId)

/-- Model of `edit_anchor_from_cb` (callback-triggered renders).  When the stored
anchor edit fails or no anchor exists, the code stores the callback's own
message id as the new anchor and then edits that message **without** a
`try`/`except`: if this second edit also fails the exception propagates
(`Except.error`).  No new message is ever sent on this path. -/
def edit_anchor_from_cb (editOk : Nat → Bool) (anchor : Option Nat)
    (cbMsgId : Nat) : Except Unit RenderResult × Option Nat :=
  match anchor with
  | some a =>
    if editOk a then (Except.ok (RenderResult.edited a), some a)
    else if editOk cbMsgId then (Except.ok (RenderResult.edited cbMsgId), some cbMsgId)
    else (Except.error (), some cbMsgId)
  | none =>
    if editOk cbMsgId then (Except.ok (RenderResult.edited cbMsgId), some cbMsgId)
    else (Except.error (), some cbMsgId)

/-- C3 (counterexample): a callback render in which the stored anchor (id
1) cannot be edited and the fallback edit of the callback's own message
(id 2) also fails — e.g. Telegram's "message is not modified" error on
both — raises out of the render instead of sending a new message, refuting
"no render ever raises"; moreover the surviving anchor id 2 is the
callback's existing message, not a fresh one. -/
theorem C3_cb_render_raises_cex :
    edit_anchor_from_cb (fun _ => false) (some 1) 2 = (Except.error (), some 2) ∧
    reply_or_edit_anchor (fun _ => false) (some 1) 2 = (RenderResult.sentNew 2, some 2) := by
  exact ⟨rfl, rfl⟩

/-- C3 (amended): after any render exactly one anchor id is stored.  For
message-triggered renders the claim holds as stated: when no anchor exists
or the anchor edit fails, a new message is sent and the fresh id becomes
the anchor, and this path never raises.  For callback-triggered renders
the fallback instead re-anchors to the callback's own message and edits it
in place; only if that second edit also fails does the render raise (with
the anchor already switched to the callback message id). -/
theorem C3_anchor_render (editOk : Nat → Bool) (anchor : Option Nat)
    (freshId cbMsgId : Nat) :
    (∃ mid, (reply_or_edit_anchor editOk anchor freshId).2 = some mid) ∧
    ((∀ a, anchor = some a → editOk a = false) →
      reply_or_edit_anchor editOk anchor freshId = (RenderResult.sentNew freshId, some freshId)) ∧
    (∃ mid, (edit_anchor_from_cb editOk anchor cbMsgId).2 = some mid) ∧
    ((∀ a, anchor = some a → editOk a = false) → editOk cbMsgId = true →
      edit_anchor_from_cb editOk anchor cbMsgId =
        (Except.ok (RenderResult.edited cbMsgId), some cbMsgId)) ∧
    ((∀ a, anchor = some a → editOk a = false) → editOk cbMsgId = false →
      edit_anchor_from_cb editOk anchor cbMsgId = (Except.error (), some cbMsgId)) := by
  cases anchor with
  | none =>
    refine ⟨⟨freshId, rfl⟩, fun _ => rfl, ?_, ?_, ?_⟩
    · cases h : editOk cbMsgId <;>
        simp [edit_anchor_from_cb, h]
    · intro _ h; simp [edit_anchor_from_cb, h]
    · intro _ h; simp [edit_anchor_from_cb, h]
  | some a =>
    cases h : editOk a with
    | true =>
      refine ⟨⟨a, by simp [reply_or_edit_anchor, h]⟩, ?_, ⟨a, by simp [edit_anchor_from_cb, h]⟩, ?_, ?_⟩
      · intro hfail
        exact absurd (hfail a rfl) (by simp [h])
      · intro hfail
        exact absurd (hfail a rfl) (by simp [h])
      · intro hfail
        exact absurd (hfail a rfl) (by simp [h])
    | false =>
      refine ⟨⟨freshId, by simp [reply_or_edit_anchor, h]⟩, fun _ => by simp [reply_or_edit_anchor, h], ?_, ?_, ?_⟩
      · cases h2 : editOk cbMsgId <;> exact ⟨cbMsgId, by simp [edit_anchor_from_cb, h, h2]⟩
      · intro _ h2; simp [edit_anchor_from_cb, h, h2]
      · intro _ h2; simp [edit_anchor_from_cb, h, h2]

/-- C3 (witness): a concrete run of the amended statement with an anchor
(id 3) whose edit fails: the message path sends a new message with fresh
id 9 and anchors it; the callback path re-anchors to the callback message
(id 4), succeeding when that edit succeeds. -/
theorem C3_anchor_render_witness :
    reply_or_edit_anchor (fun m => m == 4) (some 3) 9 = (RenderResult.sentNew 9, some 9) ∧
    edit_anchor_from_cb (fun m => m == 4) (some 3) 4 =
      (Except.ok (RenderResult.edited 4), some 4) := by
  have h := C3_anchor_render (fun m => m == 4) (some 3) 9 4
  refine ⟨h.2.1 ?_, h.2.2.2.1 ?_ rfl⟩
  · intro a ha
    cases ha; rfl
  · intro a ha
    cases ha; rfl

/-- A row of the `transactions` table (fields queried by the summary and
history operations; timestamps are abstract naturals). -/
structure Tx where
  user_id : Nat
  type : String
  amount : ℚ
  ccy : String
  category : String
  note : String
  created_at : Nat
  month_key : String
deriving DecidableEq, Repr

/-- The filter `WHERE user_id=? AND month_key=?` on the `transactions` table. -/
def monthTx (txs : List Tx) (uid : Nat) (mk : String) : List Tx :=
  txs.filter fun t => t.user_id == uid && t.month_key == mk

/-- Sum of the `amount` column over a list of rows. -/
def sumAmounts (l : List Tx) : ℚ := (l.map fun t => t.amount).sum

/-- The `SELECT type, SUM(amount) ... GROUP BY type` result: one `(type,
sum)` row per distinct `type` value among the selected rows. -/
def groupSums (txs : List Tx) (uid : Nat) (mk : String) : List (String × ℚ) :=
  let rows := monthTx txs uid mk
  ((rows.map fun t => t.type).dedup).map fun ty =>
    (ty, sumAmounts (rows.filter fun t => t.type == ty))

/-- The summary dictionary returned by `get_month_summary`. -/
structure Summary where
  month_key : String
  income : ℚ
  expense : ℚ
  free : ℚ
deriving DecidableEq, Repr

/-- Model of `get_month_summary`: build the per-type dict, read `income` and
`expense` with default 0, and set `free = income - expense`. -/
def get_month_summary (txs : List Tx) (uid : Nat) (mk : String) : Summary :=
  let data := groupSums txs uid mk
  let income := ((data.lookup "income").getD 0)
  let expense := ((data.lookup "expense").getD 0)
  { month_key := mk, income := income, expense := expense, free := income - expense }

/-- A `lookup` into an association list built by tabulating a function over
a key list yields the function's value exactly on the listed keys. -/
theorem lookup_tabulate (f : String → ℚ) (ty : String) (keys : List String) :
    ((keys.map fun k => (k, f k)).lookup ty) =
      if ty ∈ keys then some (f ty) else none := by
  induction keys with
  | nil => simp [List.lookup]
  | cons k ks ih =>
    simp only [List.map_cons, List.lookup]
    by_cases hk : ty = k
    · subst hk
      simp
    · have hbeq : (ty == k) = false := beq_eq_false_iff_ne.mpr hk
      rw [hbeq]
      simpa [hk] using ih

/-- A `lookup` into the `GROUP BY` rows built over the deduplicated key list
recovers the per-key aggregate, with 0 for an absent key. -/
theorem lookup_groupBy (rows : List Tx) (ty : String) :
    ((((rows.map fun t => t.type).dedup).map fun k =>
        (k, sumAmounts (rows.filter fun t => t.type == k))).lookup ty).getD 0 =
      sumAmounts (rows.filter fun t => t.type == ty) := by
  rw [lookup_tabulate (fun k => sumAmounts (rows.filter fun t => t.type == k)) ty]
  by_cases hty : ty ∈ (rows.map fun t => t.type).dedup
  · rw [if_pos hty]
    rfl
  · rw [if_neg hty]
    have hfilter : rows.filter (fun t => t.type == ty) = [] := by
      rw [List.filter_eq_nil_iff]
      intro t ht hbeq
      exact hty (List.mem_dedup.mpr (List.mem_map.mpr ⟨t, ht, by simpa using hbeq⟩))
    rw [hfilter]
    rfl

/-- C4: for every transaction table, user and month-key, the summary's
`income` and `expense` are the sums of the amounts of that user's
transactions of the corresponding kind in that month, and
`free = income - expense`. -/
theorem C4_month_summary (txs : List Tx) (uid : Nat) (mk : String) :
    (get_month_summary txs uid mk).income =
      sumAmounts ((monthTx txs uid mk).filter fun t => t.type == "income") ∧
    (get_month_summary txs uid mk).expense =
      sumAmounts ((monthTx txs uid mk).filter fun t => t.type == "expense") ∧
    (get_month_summary txs uid mk).free =
      (get_month_summary txs uid mk).income - (get_month_summary txs uid mk).expense := by
  refine ⟨?_, ?_, rfl⟩
  · exact lookup_groupBy (monthTx txs uid mk) "income"
  · exact lookup_groupBy (monthTx txs uid mk) "expense"

/-- Outcome of the `track_toggle` callback: either a new tracked list is
written through `update_user_settings`, or the transient alert
"Не более 5 валют" is answered and nothing is written. -/
inductive ToggleResult where
  | saved (tracked : List String)
  | warnMax
deriving DecidableEq, Repr

/-- The `tracked_ccy` branch of `update_user_settings`: the list is
truncated to its first 5 elements (`v[:5]`) before being stored. -/
def update_user_settings_tracked (l : List String) : List String := l.take 5

/-- The `track_toggle` callback handler.  The stored list is read into a
Python `set` (here: its canonical duplicate-free member list
`tracked.dedup`; only membership and size are ever used).  Writing the set
back uses `list(cur)`, whose order is implementation-defined in CPython
(string hashing is seeded per process), so the embedding takes the
enumeration `enum` of the set as a parameter: any function returning some
permutation of the member list is an admissible behaviour of `list(cur)`. -/
def track_toggle (enum : List String → List String) (tracked : List String)
    (c : String) : ToggleResult :=
  let cur := tracked.dedup
  if c ∈ cur then
    ToggleResult.saved (update_user_settings_tracked (enum (cur.erase c)))
  else if 5 ≤ cur.length then ToggleResult.warnMax
  else ToggleResult.saved (update_user_settings_tracked (enum (c :: cur)))

/-- C5: when the user already tracks 5 currencies and toggles a 6th,
not-currently-tracked one, the handler answers the transient "Не более 5
валют" alert and returns before `update_user_settings` is called: no write
happens, whatever the set enumeration. -/
theorem C5_sixth_toggle_rejected (enum : List String → List String)
    (tracked : List String) (c : String)
    (h5 : tracked.dedup.length = 5) (hc : c ∉ tracked) :
    track_toggle enum tracked c = ToggleResult.warnMax := by
  have hcur : c ∉ tracked.dedup := fun h => hc (List.mem_dedup.mp h)
  unfold track_toggle
  rw [if_neg hcur, if_pos (by omega)]

/-- C5 (witness): a concrete user tracking 5 currencies toggling "BTC". -/
theorem C5_sixth_toggle_rejected_witness :
    track_toggle id ["USD", "RUB", "EUR", "CNY", "GBP"] "BTC" = ToggleResult.warnMax := by
  exact C5_sixth_toggle_rejected id ["USD", "RUB", "EUR", "CNY", "GBP"] "BTC"
    (by decide) (by decide)

/-- C9 (counterexample): the stored order is not preserved.  The write
path is `list(set(...))`, whose enumeration order CPython does not tie to
the previous stored order; under the admissible enumeration
`List.reverse`, toggling "EUR" on for a user tracking ["USD", "RUB"]
stores ["RUB", "USD", "EUR"], in which the previously-tracked "RUB" now
precedes "USD" — the old sequence is not a subsequence of the new one. -/
theorem C9_order_not_preserved_cex :
    (∀ l : List String, (List.reverse l).Perm l) ∧
    track_toggle List.reverse ["USD", "RUB"] "EUR" =
      ToggleResult.saved ["RUB", "USD", "EUR"] ∧
    List.indexOf "USD" ["USD", "RUB"] < List.indexOf "RUB" ["USD", "RUB"] ∧
    List.indexOf "RUB" ["RUB", "USD", "EUR"] < List.indexOf "USD" ["RUB", "USD", "EUR"] := by
  refine ⟨fun l => List.reverse_perm l, by decide, by decide, by decide⟩

/-- C9 (amended): after every `track_toggle` write the stored tracked list
has at most 5 elements and no duplicates (for every admissible set
enumeration, i.e. every function producing a permutation of the member
list); order preservation, however, is not guaranteed, since the write
round-trips through an unordered set.  `track_save` performs no write at
all, so it preserves the invariant trivially. -/
theorem C9_tracked_invariant (enum : List String → List String)
    (hEnum : ∀ l, (enum l).Perm l) (tracked : List String) (c : String)
    (out : List String) (h : track_toggle enum tracked c = ToggleResult.saved out) :
    out.length ≤ 5 ∧ out.Nodup := by
  have hnodup : ∀ l : List String, l.Nodup → (update_user_settings_tracked (enum l)).Nodup :=
    fun l hl => ((hEnum l).nodup_iff.mpr hl).sublist (List.take_sublist 5 (enum l))
  have hlen : ∀ l : List String, (update_user_settings_tracked (enum l)).length ≤ 5 :=
    fun l => (List.length_take 5 (enum l)) ▸ Nat.min_le_left 5 (enum l).length
  unfold track_toggle at h
  by_cases hmem : c ∈ tracked.dedup
  · rw [if_pos hmem] at h
    cases h
    exact ⟨hlen _, hnodup _ (List.Nodup.erase c (List.nodup_dedup tracked))⟩
  · rw [if_neg hmem] at h
    by_cases h5 : 5 ≤ tracked.dedup.length
    · rw [if_pos h5] at h
      cases h
    · rw [if_neg h5] at h
      cases h
      exact ⟨hlen _, hnodup _ (List.nodup_cons.mpr ⟨hmem, List.nodup_dedup tracked⟩)⟩

/-- C9 (witness): toggling "EUR" on for a user tracking ["USD"] under the
identity enumeration stores ["EUR", "USD"], which has ≤ 5 elements and no
duplicates. -/
theorem C9_tracked_invariant_witness :
    (["EUR", "USD"] : List String).length ≤ 5 ∧ (["EUR", "USD"] : List String).Nodup := by
  exact C9_tracked_invariant id (fun l => List.Perm.refl l) ["USD"] "EUR"
    ["EUR", "USD"] (by decide)

/-- A row of the `debts` table. -/
structure Debt where
  id : Nat
  user_id : Nat
  direction : String
  counterparty : String
  amount : ℚ
  ccy : String
  note : String
  status : String
  created_at : Nat
  closed_at : Option Nat
deriving DecidableEq, Repr

/-- Effect of the `close_debt` UPDATE on a single row: the row is changed
exactly when it matches `user_id=? AND id=? AND status='open'`. -/
def closeRow (uid did now : Nat) (d : Debt) : Debt :=
  if d.user_id = uid ∧ d.id = did ∧ d.status = "open" then
    { d with status := "closed", closed_at := some now }
  else d

/-- Model of `close_debt`: `UPDATE debts SET status='closed', closed_at=? WHERE
user_id=? AND id=? AND status='open'`.  A zero-row update is not an
error. -/
def close_debt (debts : List Debt) (uid did now : Nat) : List Debt :=
  debts.map (closeRow uid did now)

/-- The `debt_close_cb` callback handler: `close_debt` never raises on a
zero-row update (the `except` branch only fires on a malformed id or a
storage error), so the handler always reaches `cb.answer("Долг закрыт")`.
Returns the table afterwards and the answered notice. -/
def debt_close_cb (debts : List Debt) (uid did now : Nat) : List Debt × String :=
  (close_debt debts uid did now, "Долг закрыт")

/-- A sample already-closed debt row owned by user 7. -/
def closedDebtSample : Debt :=
  { id := 1, user_id := 7, direction := "to_me", counterparty := "Иван",
    amount := 100, ccy := "KZT", note := "", status := "closed",
    created_at := 0, closed_at := some 3 }

/-- C6 (counterexample): closing an already-closed debt changes no row —
but the user sees the success notice "Долг закрыт", not a "failed to
close" notice: the zero-row UPDATE raises nothing, so the
"Не удалось закрыть долг" branch is never taken. -/
theorem C6_closed_debt_cex :
    debt_close_cb [closedDebtSample] 7 1 5 = ([closedDebtSample], "Долг закрыт") ∧
    "Долг закрыт" ≠ "Не удалось закрыть долг" := by
  exact ⟨rfl, by decide⟩

/-- C6 (amended): a close request changes a row only if that row is open,
owned by the requesting user and has the requested id; when no such row
exists (already closed, or owned by another user) the table is unchanged —
but the user still sees the success notice "Долг закрыт", since the
zero-row update raises no error and the failure alert is reserved for an
exception from `close_debt` itself. -/
theorem C6_close_guard (debts : List Debt) (uid did now : Nat) :
    (∀ d ∈ debts, closeRow uid did now d ≠ d →
      d.status = "open" ∧ d.user_id = uid ∧ d.id = did) ∧
    ((∀ d ∈ debts, d.user_id = uid → d.id = did → d.status ≠ "open") →
      debt_close_cb debts uid did now = (debts, "Долг закрыт")) := by
  constructor
  · intro d _ hne
    by_cases hc : d.user_id = uid ∧ d.id = did ∧ d.status = "open"
    · exact ⟨hc.2.2, hc.1, hc.2.1⟩
    · exact absurd (by simp [closeRow, hc]) hne
  · intro h
    have h2 : ∀ d ∈ debts, closeRow uid did now d = id d := by
      intro d hd
      have hc : ¬(d.user_id = uid ∧ d.id = did ∧ d.status = "open") :=
        fun hcon => h d hd hcon.1 hcon.2.1 hcon.2.2
      simp [closeRow, hc]
    have hmap : close_debt debts uid did now = debts := by
      unfold close_debt
      rw [List.map_congr_left h2, List.map_id]
    simp [debt_close_cb, hmap]

/-- C6 (witness): closing debt id 2 of user 9, which is already closed,
leaves the table unchanged and answers the success notice. -/
theorem C6_close_guard_witness :
    debt_close_cb
      [{ id := 2, user_id := 9, direction := "from_me", counterparty := "Олег",
         amount := 50, ccy := "USD", note := "", status := "closed",
         created_at := 1, closed_at := some 2 }] 9 2 8 =
    ([{ id := 2, user_id := 9, direction := "from_me", counterparty := "Олег",
        amount := 50, ccy := "USD", note := "", status := "closed",
        created_at := 1, closed_at := some 2 }], "Долг закрыт") := by
  exact (C6_close_guard _ 9 2 8).2 (by decide)

/-- Outcome of the HTTP round trip `session.get(url, timeout=10)` inside
`get_rate`: either the request times out (aiohttp raises — there is no
`try`/`except` around it in `get_rate`), or a response arrives with a
status code and the optional numeric value of `data["rates"][quote]`. -/
inductive HttpOutcome where
  | timeout
  | response (status : Nat) (rate : Option ℚ)
deriving DecidableEq, Repr

/-- The `timeout=10` argument passed to `session.get` in `get_rate`. -/
def REQUEST_TIMEOUT_SECONDS : Nat := 10

/-- A row of the `fx_cache` table (primary key `(ccy_base, ccy_quote)`;
the fetch timestamp is an abstract natural). -/
structure FxEntry where
  ccy_base : String
  ccy_quote : String
  rate : ℚ
  fetched_at : Nat
deriving DecidableEq, Repr

def FX_TTL_SECONDS : Nat := 6 * 3600

/-- The query `SELECT rate, fetched_at FROM fx_cache WHERE ccy_base=? AND
ccy_quote=?` (single row thanks to the primary key). -/
def lookupFx (cache : List FxEntry) (base quote : String) : Option (ℚ × Nat) :=
  (cache.find? fun e => e.ccy_base == base && e.ccy_quote == quote).map
    fun e => (e.rate, e.fetched_at)

/-- The statement `INSERT OR REPLACE INTO fx_cache` on the primary key. -/
def insertFx (cache : List FxEntry) (base quote : String) (r : ℚ) (now : Nat) :
    List FxEntry :=
  { ccy_base := base, ccy_quote := quote, rate := r, fetched_at := now } ::
    cache.filter fun e => !(e.ccy_base == base && e.ccy_quote == quote)

/-- Model of `get_rate`: `base == quote` short-circuits to 1.0; a fresh cache entry
(younger than the TTL) is returned without a network call; otherwise the
HTTP outcome decides: a timeout raises (`Except.error`), a non-200 status
returns `None`, a 200 response with a truthy rate is cached and returned,
and a missing or zero rate falls through to `None`. -/
def get_rate (outcome : HttpOutcome) (cache : List FxEntry) (now : Nat)
    (base quote : String) : Except Unit (Option ℚ) × List FxEntry :=
  if base = quote then (Except.ok (some 1), cache)
  else
    let fresh : Bool :=
      match lookupFx cache base quote with
      | some (_, fetched) => (now : Int) - fetched < (FX_TTL_SECONDS : Int)
      | none => false
    if fresh then
      match lookupFx cache base quote with
      | some (r, _) => (Except.ok (some r), cache)
      | none => (Except.ok none, cache)
    else
      match outcome with
      | HttpOutcome.timeout => (Except.error (), cache)
      | HttpOutcome.response status rate =>
        if status ≠ 200 then (Except.ok none, cache)
        else
          match rate with
          | some r =>
            if r ≠ 0 then (Except.ok (some r), insertFx cache base quote r now)
            else (Except.ok none, cache)
          | none => (Except.ok none, cache)

/-- The `for q in tracked[:5]` loop of `get_rates_for_user`, threading the
cache; a raise from `get_rate` aborts the whole loop (`Except.error`), and
only truthy rates (`if r:`) are appended. -/
def ratesLoop (http : String → HttpOutcome) (now : Nat) (base : String) :
    List String → List FxEntry → Except Unit (List (String × ℚ)) × List FxEntry
  | [], cache => (Except.ok [], cache)
  | q :: rest, cache =>
    match get_rate (http q) cache now base q with
    | (Except.error _, cache2) => (Except.error (), cache2)
    | (Except.ok ro, cache2) =>
      match ratesLoop http now base rest cache2 with
      | (Except.error _, cache3) => (Except.error (), cache3)
      | (Except.ok pairs, cache3) =>
        (Except.ok ((match ro with
          | some v => if v ≠ 0 then [(q, v)] else []
          | none => []) ++ pairs), cache3)

/-- Model of `get_rates_for_user`: drop empty strings from the tracked list
(`[q for q in tracked if q]`), query at most the first 5, collect the
truthy rates in order. -/
def get_rates_for_user (http : String → HttpOutcome) (cache : List FxEntry)
    (now : Nat) (base : String) (tracked : List String) :
    Except Unit (List (String × ℚ)) × List FxEntry :=
  ratesLoop http now base ((tracked.filter fun q => !(q == "")).take 5) cache

/-- What the `rates_cb` handler shows for a given listing outcome: an
exception from `get_rates_for_user` propagates out of the handler
(`raised`), an empty listing triggers the alert, and otherwise the rate
lines are rendered on the anchor. -/
inductive RatesScreen where
  | raised
  | alert (msg : String)
  | screen (base : String) (pairs : List (String × ℚ))
deriving DecidableEq, Repr

def rates_cb (base : String) (res : Except Unit (List (String × ℚ))) : RatesScreen :=
  match res with
  | Except.error _ => RatesScreen.raised
  | Except.ok [] => RatesScreen.alert "Не удалось получить курсы"
  | Except.ok pairs => RatesScreen.screen base pairs

/-- C7 (counterexample): when the provider times out for the tracked
currency, the timeout is not converted into a "rate unavailable" result:
`get_rate` raises, the exception propagates through `get_rates_for_user`,
and `rates_cb` raises instead of showing the alert. -/
theorem C7_timeout_propagates_cex :
    (get_rates_for_user (fun _ => HttpOutcome.timeout) [] 0 "KZT" ["USD"]).1 =
      Except.error () ∧
    rates_cb "KZT" (Except.error ()) = RatesScreen.raised := by
  exact ⟨rfl, rfl⟩

/-- C7 (amended): the network call carries the bounded 10-second timeout,
and a non-success (non-200) response — with no fresh cache entry to fall
back on — is converted into the unavailable result `None` without raising;
a timeout, however, raises out of `get_rate` (there is no `try`/`except`
around the HTTP call) and propagates through the rates operation, so the
user-visible "rates unavailable" alert is shown exactly when the listing
completes with no usable rate, not when a fetch times out. -/
theorem C7_rate_errors (cache : List FxEntry) (now : Nat) (base quote : String)
    (status : Nat) (r : Option ℚ)
    (hq : base ≠ quote) (hc : lookupFx cache base quote = none)
    (hs : status ≠ 200) :
    get_rate (HttpOutcome.response status r) cache now base quote =
      (Except.ok none, cache) ∧
    get_rate HttpOutcome.timeout cache now base quote = (Except.error (), cache) ∧
    rates_cb base (Except.error ()) = RatesScreen.raised ∧
    rates_cb base (Except.ok []) = RatesScreen.alert "Не удалось получить курсы" ∧
    REQUEST_TIMEOUT_SECONDS = 10 := by
  refine ⟨?_, ?_, rfl, rfl, rfl⟩
  · simp [get_rate, hq, hc, hs]
  · simp [get_rate, hq, hc]

/-- C7 (witness): concrete run — base "KZT", quote "USD", empty cache, a
404 response yields `None` and a timeout raises. -/
theorem C7_rate_errors_witness :
    get_rate (HttpOutcome.response 404 (some 5)) [] 0 "KZT" "USD" =
      (Except.ok none, []) ∧
    get_rate HttpOutcome.timeout [] 0 "KZT" "USD" = (Except.error (), []) := by
  have h := C7_rate_errors [] 0 "KZT" "USD" 404 (some 5)
    (by decide) (by decide) (by decide)
  exact ⟨h.1, h.2.1⟩

/-- When the rates loop completes without raising, every collected pair
carries a nonzero rate and the collected quotes form a subsequence of the
queried quote list (so nothing outside it is ever reported). -/
theorem ratesLoop_ok_sound (http : String → HttpOutcome) (now : Nat) (base : String) :
    ∀ (qs : List String) (cache : List FxEntry) (pairs : List (String × ℚ))
      (cache2 : List FxEntry),
      ratesLoop http now base qs cache = (Except.ok pairs, cache2) →
      List.Sublist (pairs.map Prod.fst) qs ∧ ∀ p ∈ pairs, p.2 ≠ 0 := by
  intro qs
  induction qs with
  | nil =>
    intro cache pairs cache2 h
    simp only [ratesLoop] at h
    obtain ⟨h1, _⟩ := Prod.mk.injEq .. ▸ h
    cases h1
    exact ⟨List.nil_sublist _, by simp⟩
  | cons q rest ih =>
    intro cache pairs cache2 h
    simp only [ratesLoop] at h
    rcases hg : get_rate (http q) cache now base q with ⟨res, c2⟩
    rw [hg] at h
    cases res with
    | error e => simp at h
    | ok ro =>
      dsimp only at h
      rcases hr : ratesLoop http now base rest c2 with ⟨res2, c3⟩
      rw [hr] at h
      cases res2 with
      | error e => simp at h
      | ok pairs2 =>
        have hsub := ih c2 pairs2 c3 hr
        simp only [Prod.mk.injEq, Except.ok.injEq] at h
        obtain ⟨hpairs, _⟩ := h
        subst hpairs
        cases ro with
        | none =>
          simp only [List.nil_append]
          exact ⟨hsub.1.cons q, hsub.2⟩
        | some v =>
          dsimp only
          by_cases hv : v ≠ 0
          · rw [if_pos hv]
            simp only [List.singleton_append, List.map_cons]
            refine ⟨hsub.1.cons₂ q, ?_⟩
            intro p hp
            rcases List.mem_cons.mp hp with h1 | h2
            · subst h1; exact hv
            · exact hsub.2 p h2
          · rw [if_neg hv]
            simp only [List.nil_append]
            exact ⟨hsub.1.cons q, hsub.2⟩

/-- C10 (counterexample): a tracked currency whose fetch times out is not
"silently omitted": the exception aborts the whole listing, so nothing at
all is returned (and the second tracked currency is never reached). -/
theorem C10_timeout_not_omitted_cex :
    get_rates_for_user (fun _ => HttpOutcome.timeout) [] 0 "KZT" ["USD", "EUR"] =
      (Except.error (), []) := by
  exact rfl

/-- C10 (amended): whenever the listing completes without raising, it
contains only `(quote, rate)` pairs whose rate was actually obtained and
is nonzero — a tracked currency whose fetch returns unavailable (non-200,
missing or zero rate) is silently omitted — and the reported quotes are a
subsequence of the first 5 nonempty tracked currencies, which are the only
ones queried.  A fetch that raises (timeout) aborts the listing instead of
being omitted. -/
theorem C10_rates_listing (http : String → HttpOutcome) (cache : List FxEntry)
    (now : Nat) (base : String) (tracked : List String)
    (pairs : List (String × ℚ)) (cache2 : List FxEntry)
    (h : get_rates_for_user http cache now base tracked = (Except.ok pairs, cache2)) :
    List.Sublist (pairs.map Prod.fst) ((tracked.filter fun q => !(q == "")).take 5) ∧
    ∀ p ∈ pairs, p.2 ≠ 0 := by
  exact ratesLoop_ok_sound http now base _ cache pairs cache2 h

/-- C10 (witness): with a provider answering 200/rate 2 for every quote,
the listing for tracked ["USD"] is [("USD", 2)]: a subsequence of the
queried list with a nonzero rate. -/
theorem C10_rates_listing_witness :
    List.Sublist ([("USD", (2 : ℚ))].map Prod.fst) ((["USD"].filter fun q => !(q == "")).take 5) ∧
    ∀ p ∈ [("USD", (2 : ℚ))], p.2 ≠ 0 := by
  exact C10_rates_listing (fun _ => HttpOutcome.response 200 (some 2)) [] 0 "KZT"
    ["USD"] [("USD", 2)]
    [{ ccy_base := "KZT", ccy_quote := "USD", rate := 2, fetched_at := 0 }] rfl

/-- Insertion step of the `ORDER BY created_at DESC` sort. -/
def insertByDate (t : Tx) : List Tx → List Tx
  | [] => [t]
  | h :: rest =>
    if h.created_at ≤ t.created_at then t :: h :: rest else h :: insertByDate t rest

/-- The sort `ORDER BY created_at DESC` as an insertion sort. -/
def sortByDateDesc : List Tx → List Tx
  | [] => []
  | h :: rest => insertByDate h (sortByDateDesc rest)

theorem length_insertByDate (t : Tx) (l : List Tx) :
    (insertByDate t l).length = l.length + 1 := by
  induction l with
  | nil => rfl
  | cons h rest ih =>
    by_cases hle : h.created_at ≤ t.created_at
    · simp [insertByDate, hle]
    · simp [insertByDate, hle, ih]

theorem length_sortByDateDesc (l : List Tx) :
    (sortByDateDesc l).length = l.length := by
  induction l with
  | nil => rfl
  | cons h rest ih => simp [sortByDateDesc, length_insertByDate, ih]

/-- Model of `list_transactions`: the user's rows for the month, newest first, with
`LIMIT per_page OFFSET (page-1)*per_page`. -/
def list_transactions (txs : List Tx) (uid : Nat) (mk : String)
    (page per_page : Nat) : List Tx :=
  ((sortByDateDesc (monthTx txs uid mk)).drop ((page - 1) * per_page)).take per_page

/-- The screen produced by the `history_cb` handler. -/
structure HistoryRender where
  page : Nat
  shown : List Tx
  has_more : Bool
  kb : Keyboard
deriving DecidableEq, Repr

/-- Model of `history_cb`: `page = max(int(page_s), 1)`, `per_page = 8`, fetch
`per_page + 1` rows to detect whether more pages exist, show the first
`per_page`, and build `kb_history page has_more`. -/
def history_cb (txs : List Tx) (uid : Nat) (mk : String) (pageReq : Int) :
    HistoryRender :=
  let page : Nat := (max pageReq 1).toNat
  let per_page : Nat := 8
  let rows := list_transactions txs uid mk page (per_page + 1)
  let has_more : Bool := per_page < rows.length
  { page := page, shown := rows.take per_page, has_more := has_more,
    kb := kb_history page has_more }

/-- Three sample transactions of user 1 in month "2025-10". -/
def txsSample : List Tx :=
  [{ user_id := 1, type := "expense", amount := 10, ccy := "KZT",
     category := "Продукты", note := "", created_at := 3, month_key := "2025-10" },
   { user_id := 1, type := "income", amount := 300, ccy := "KZT",
     category := "Работа", note := "", created_at := 2, month_key := "2025-10" },
   { user_id := 1, type := "expense", amount := 5, ccy := "KZT",
     category := "Связь", note := "", created_at := 1, month_key := "2025-10" }]

/-- C8 (counterexample): requesting page 2 when only 3 rows exist (beyond
the available data) yields `has_more = false` — but the navigation shown
is the previous-page button plus the back button; the refresh button is
absent, because `kb_history` only emits it when the nav row would
otherwise be empty, which on page 2 it is not. -/
theorem C8_nav_beyond_data_cex :
    (history_cb txsSample 1 "2025-10" 2).has_more = false ∧
    (history_cb txsSample 1 "2025-10" 2).shown = [] ∧
    (history_cb txsSample 1 "2025-10" 2).kb =
      [[{ text := "◀️", callback_data := "history:1" }],
       [{ text := "⬅️ Назад", callback_data := "home" }]] ∧
    ((history_cb txsSample 1 "2025-10" 2).kb.all fun row =>
      row.all fun b => !(b.text == "↻ Обновить")) = true := by
  refine ⟨rfl, rfl, rfl, rfl⟩

/-- C8 (amended): the history screen paginates with a fixed page size of 8
and requests 9 rows to detect whether more pages exist (`has_more` is true
exactly when a 9th row came back); for a page request beyond the available
data `has_more` is false and nothing is shown, and the navigation then
consists of the refresh and back actions when the page is 1, but of the
previous-page and back actions (no refresh) when the page is greater
than 1.  (The offset passed to the storage query advances by the requested
size 9 — not by the page size 8 — per page, so consecutive pages skip one
row; "beyond the available data" is measured against that stride.) -/
theorem C8_history_pagination (txs : List Tx) (uid : Nat) (mk : String)
    (pageReq : Int)
    (hBeyond : (monthTx txs uid mk).length ≤ ((max pageReq 1).toNat - 1) * 9) :
    (history_cb txs uid mk pageReq).has_more =
      decide (8 < (list_transactions txs uid mk (max pageReq 1).toNat 9).length) ∧
    (history_cb txs uid mk pageReq).shown =
      (((sortByDateDesc (monthTx txs uid mk)).drop
        (((max pageReq 1).toNat - 1) * 9)).take 9).take 8 ∧
    (history_cb txs uid mk pageReq).shown.length ≤ 8 ∧
    (history_cb txs uid mk pageReq).has_more = false ∧
    (history_cb txs uid mk pageReq).shown = [] ∧
    (history_cb txs uid mk pageReq).kb =
      (if 1 < (max pageReq 1).toNat then
        [[{ text := "◀️",
            callback_data := "history:" ++ toString ((max pageReq 1).toNat - 1) }],
         [{ text := "⬅️ Назад", callback_data := "home" }]]
      else
        [[{ text := "↻ Обновить",
            callback_data := "history:" ++ toString (max pageReq 1).toNat }],
         [{ text := "⬅️ Назад", callback_data := "home" }]]) := by
  have hrows : list_transactions txs uid mk (max pageReq 1).toNat 9 = [] := by
    unfold list_transactions
    rw [List.drop_eq_nil_of_le]
    · rfl
    · rw [length_sortByDateDesc]
      exact hBeyond
  refine ⟨?_, ?_, ?_, ?_, ?_, ?_⟩
  · simp [history_cb]
  · simp [history_cb, list_transactions]
  · simp [history_cb, hrows]
  · simp [history_cb, hrows]
  · simp [history_cb, hrows]
  · simp only [history_cb, hrows]
    by_cases hp : 1 < (max pageReq 1).toNat
    · rw [if_pos hp]
      simp [kb_history, hp]
    · rw [if_neg hp]
      simp [kb_history, hp]

/-- C8 (witness): page 3 of a 3-row month is beyond the available data:
nothing is shown and `has_more` is false. -/
theorem C8_history_pagination_witness :
    (history_cb txsSample 1 "2025-10" 3).has_more = false ∧
    (history_cb txsSample 1 "2025-10" 3).shown = [] := by
  have h := C8_history_pagination txsSample 1 "2025-10" 3 (by decide)
  exact ⟨h.2.2.2.1, h.2.2.2.2.1⟩
